import Mathlib

/-!
Shallow embedding of the structured-generation pipeline of the biaoshu
backend: the leaf allocation of `backend/app/utils/outline_util.py`, the
structural JSON validation of `backend/app/utils/json_util.py`, and the
JSON-checked retry loop, section expansion and outline content filler of
`backend/app/services/openai_service.py`.

Conventions: Python ints are `ℤ` (or `ℕ` for values that are
nonnegative by construction), Python `round` on an exact value is
round-half-to-even on `ℚ`, Python `//` and `%` on ints are `Int.fdiv`
and `Int.fmod`, and code paths that raise are embedded with `Option` or
`Except` (`none` / `.error` marking the raise).  The external text
generator and `json.loads` are injected as explicit parameters.
-/

namespace Biaoshu

/-- Python `round` to the nearest integer on an exact rational:
round half to even (banker's rounding).  The source applies `round` to
64-bit float expressions; this embedding evaluates the same expressions
in exact rational arithmetic, which can differ from the float result
only when the float approximation crosses a half-integer tie.  Every
theorem below that depends on `pyRound` uses only bounds that hold for
any nearest-integer rounding (`⌊q⌋ ≤ pyRound q ≤ ⌊q⌋ + 1`), and every
concrete counterexample evaluates `pyRound` far from a tie, where the
float and the exact value round identically. -/
def pyRound (q : ℚ) : ℤ :=
  if q - ⌊q⌋ < 1 / 2 then ⌊q⌋
  else if 1 / 2 < q - ⌊q⌋ then ⌊q⌋ + 1
  else if ⌊q⌋ % 2 = 0 then ⌊q⌋ else ⌊q⌋ + 1

/-! ### outline_util.py -/

/-- `get_random_indexes(max_index)`: the random draw
`random.sample(range(max_index), 2)` is injected as `draw`; `none`
embeds the `ValueError` raised when `max_index < 2`. -/
def get_random_indexes (max_index : ℕ) (draw : ℕ × ℕ) : Option (ℕ × ℕ) :=
  if max_index < 2 then none else some draw

def p_weight : ℚ := 14 / 10

def s_weight : ℚ := 12 / 10

def n_weight : ℚ := 1

/-- `total_weight = (level1_count - 2) * n_weight + p_weight + s_weight`
(Python int subtraction, may be negative). -/
def total_weight (level1_count : ℕ) : ℚ :=
  ((level1_count : ℤ) - 2) * n_weight + p_weight + s_weight

/-- `base_l2 = round(total_leaf_nodes / level1_count / 3)`. -/
def base_l2 (level1_count total_leaf_nodes : ℕ) : ℤ :=
  pyRound ((total_leaf_nodes : ℚ) / (level1_count : ℚ) / 3)

/-- The `level2_nodes` list: `[base_l2] * level1_count` with the two
important indexes overwritten by `round(base_l2 * p_weight)` and
`round(base_l2 * s_weight)` (in that order, as in the source). -/
def level2_nodes (level1_count : ℕ) (important_indexes : ℕ × ℕ) (total_leaf_nodes : ℕ) :
    List ℤ :=
  let b := base_l2 level1_count total_leaf_nodes
  ((List.replicate level1_count b).set important_indexes.1
      (pyRound ((b : ℚ) * p_weight))).set important_indexes.2
    (pyRound ((b : ℚ) * s_weight))

/-- The per-iteration weight: `p_weight if i == important_indexes[0]
else (s_weight if i == important_indexes[1] else n_weight)`. -/
def weight_at (important_indexes : ℕ × ℕ) (i : ℕ) : ℚ :=
  if i = important_indexes.1 then p_weight
  else if i = important_indexes.2 then s_weight
  else n_weight

/-- The rounded target of a non-last section:
`round(total_leaf_nodes * weight / total_weight)`. -/
def rounded_target (level1_count : ℕ) (important_indexes : ℕ × ℕ)
    (total_leaf_nodes : ℕ) (i : ℕ) : ℤ :=
  pyRound ((total_leaf_nodes : ℚ) * weight_at important_indexes i /
    total_weight level1_count)

structure Distribution where
  level2_nodes : List ℤ
  leaf_nodes : List ℤ
  leaf_per_level2 : List (List ℤ)
deriving DecidableEq, Repr

/-- The `for i in range(level1_count)` loop of
`calculate_nodes_distribution`, over the list `is` of remaining indices,
carrying `rem_leaves`.  Returns the `leaf_nodes` and `leaf_per_l2`
accumulated over `is`; `none` embeds the `ZeroDivisionError` raised by
`target // l2_count` when a section's level-2 count is zero. -/
def distLoop (level1_count : ℕ) (important_indexes : ℕ × ℕ) (total_leaf_nodes : ℕ)
    (l2 : List ℤ) : List ℕ → ℤ → Option (List ℤ × List (List ℤ))
  | [], _ => some ([], [])
  | i :: rest, rem =>
    let target : ℤ :=
      if i < level1_count - 1 then
        rounded_target level1_count important_indexes total_leaf_nodes i
      else rem
    let l2_count := l2.getD i 0
    if l2_count = 0 then none
    else
      let l_per_l2 := Int.fdiv target l2_count
      let extra := Int.fmod target l2_count
      let row := (List.range l2_count.toNat).map
        (fun j => l_per_l2 + if (j : ℤ) < extra then 1 else 0)
      match distLoop level1_count important_indexes total_leaf_nodes l2 rest (rem - target) with
      | none => none
      | some (ln, lpl) => some (target :: ln, row :: lpl)

/-- `calculate_nodes_distribution(level1_count, important_indexes,
total_leaf_nodes)`; `none` embeds the `ZeroDivisionError` path. -/
def calculate_nodes_distribution (level1_count : ℕ) (important_indexes : ℕ × ℕ)
    (total_leaf_nodes : ℕ) : Option Distribution :=
  let l2 := level2_nodes level1_count important_indexes total_leaf_nodes
  match distLoop level1_count important_indexes total_leaf_nodes l2
      (List.range level1_count) (total_leaf_nodes : ℤ) with
  | none => none
  | some (ln, lpl) => some ⟨l2, ln, lpl⟩

/-! ### generate_outline_v2: the leaf budget and the allocation call -/

/-- `expected_word_count = 100000` in `generate_outline_v2`. -/
def expected_word_count : ℕ := 100000

/-- `leaf_node_count = expected_word_count // 1500` — the total leaf
budget handed to `calculate_nodes_distribution`. -/
def leaf_node_count : ℕ := expected_word_count / 1500

/-- The allocation steps of `generate_outline_v2`:
`index1, index2 = get_random_indexes(len(level_l1))` followed by
`calculate_nodes_distribution(len(level_l1), (index1, index2),
leaf_node_count)`; `none` embeds an uncaught exception in either step. -/
def outline_nodes_distribution (level1_count : ℕ) (draw : ℕ × ℕ) : Option Distribution :=
  match get_random_indexes level1_count draw with
  | none => none
  | some imp => calculate_nodes_distribution level1_count imp leaf_node_count

/-! ### openai_service._generate_with_json_check -/

/-- Outcome of `_generate_with_json_check`: the returned string
(`Except.ok`) or the raised exception message (`Except.error`), together
with the number of generator calls made and the number of backoff
sleeps performed. -/
structure GenOutcome where
  result : Except String String
  calls : ℕ
  sleeps : ℕ
deriving Repr

/-- The `while True` loop of `_generate_with_json_check`.  The external
generator is injected as `gen` (call number ↦ collected stream text,
standing for `_collect_stream_text`), and `check_json` as
`check : String → Bool × String` (ok flag, error message).  `remaining`
is `max_retries - attempt`, `calls` the calls already made, `sleeps`
the `asyncio.sleep(0.5)` calls already made. -/
def genLoop (gen : ℕ → String) (check : String → Bool × String)
    (raise_on_fail : Bool) : ℕ → ℕ → ℕ → GenOutcome
  | 0, calls, sleeps =>
    let full_content := gen calls
    if (check full_content).1 then ⟨Except.ok full_content, calls + 1, sleeps⟩
    else if raise_on_fail then ⟨Except.error (check full_content).2, calls + 1, sleeps⟩
    else ⟨Except.ok full_content, calls + 1, sleeps⟩
  | r + 1, calls, sleeps =>
    let full_content := gen calls
    if (check full_content).1 then ⟨Except.ok full_content, calls + 1, sleeps⟩
    else genLoop gen check raise_on_fail r (calls + 1) (sleeps + 1)

/-- `_generate_with_json_check(messages, schema, max_retries, ...,
raise_on_fail)`: starts with `attempt = 0`, no calls, no sleeps. -/
def generate_with_json_check (gen : ℕ → String) (check : String → Bool × String)
    (max_retries : ℕ) (raise_on_fail : Bool) : GenOutcome :=
  genLoop gen check raise_on_fail max_retries 0 0

/-! ### json_util.check_structure -/

/-- A parsed Python value as handled by `check_structure`: the types
`json.loads` can produce.  In Python `bool` is a subtype of `int`, so
`isinstance(x, (int, float))` is true for booleans; `isNum` below
therefore covers `bool`, while `type(x)` (`sameType`) still
distinguishes it.  Python floats are carried as `ℚ`; only their type
tag matters to `check_structure`. -/
inductive JVal where
  | null : JVal
  | bool : Bool → JVal
  | int : ℤ → JVal
  | float : ℚ → JVal
  | str : String → JVal
  | arr : List JVal → JVal
  | obj : List (String × JVal) → JVal

/-- `isinstance(x, (int, float))`: true for Python ints, floats and
bools (a Python bool is an int). -/
def isNum : JVal → Bool
  | .bool _ => true
  | .int _ => true
  | .float _ => true
  | _ => false

/-- `type(template) is type(target)`. -/
def sameType : JVal → JVal → Bool
  | .null, .null => true
  | .bool _, .bool _ => true
  | .int _, .int _ => true
  | .float _, .float _ => true
  | .str _, .str _ => true
  | .arr _, .arr _ => true
  | .obj _, .obj _ => true
  | _, _ => false

/-- `type(x).__name__`, for the mismatch message. -/
def typeName : JVal → String
  | .null => "NoneType"
  | .bool _ => "bool"
  | .int _ => "int"
  | .float _ => "float"
  | .str _ => "str"
  | .arr _ => "list"
  | .obj _ => "dict"

mutual

/-- `check_structure(target, template, path)` from `json_util.check_json`:
numeric widening first, then the identical-type check, then the list
rule (empty template list matches any list; a non-empty template list
requires a non-empty target whose every element matches the template
list head) and the dict rule (every template key present and
recursively valid; extra target keys ignored), first failure
short-circuiting. -/
def check_structure : JVal → JVal → String → Bool × String
  | target, template, path =>
    if isNum template && isNum target then (true, "")
    else if !sameType template target && !(isNum template && isNum target) then
      (false, "路径 " ++ path ++ " 的类型不匹配: 期望 " ++ typeName template ++
        ", 实际 " ++ typeName target)
    else
      match template, target with
      | .arr tl, .arr tgt =>
        match tl with
        | [] => (true, "")
        | t0 :: _ =>
          match tgt with
          | [] => (false, "路径 " ++ path ++ " 的列表为空，但期望有内容")
          | _ => checkElems t0 tgt 0 path
      | .obj tm, .obj tg => checkKeys tm tg path
      | _, _ => (true, "")
termination_by _t tp _p => (sizeOf tp, 0)
decreasing_by all_goals (simp_wf; omega)

/-- The `for i, item in enumerate(target)` loop: every target element
against the fixed template head `t0`. -/
def checkElems : JVal → List JVal → ℕ → String → Bool × String
  | _, [], _, _ => (true, "")
  | t0, x :: xs, i, path =>
    let r := check_structure x t0 (path ++ "[" ++ toString i ++ "]")
    if r.1 then checkElems t0 xs (i + 1) path else r
termination_by t0 ts _i _p => (sizeOf t0, 1 + sizeOf ts)
decreasing_by all_goals (simp_wf; omega)

/-- The `for key in template` loop over an object template. -/
def checkKeys : List (String × JVal) → List (String × JVal) → String → Bool × String
  | [], _, _ => (true, "")
  | (key, tv) :: rest, tg, path =>
    match tg.lookup key with
    | none => (false, "路径 " ++ path ++ " 缺少必需的键 " ++ key)
    | some v =>
      let r := check_structure v tv (path ++ "." ++ key)
      if r.1 then checkKeys rest tg path else r
termination_by tm _tg _p => (sizeOf tm, 0)
decreasing_by all_goals (simp_wf; omega)

end

/-- Element-homogeneity of a list value: every element structurally
matches the first (the contract enforced on non-empty template lists). -/
def homog (l : List JVal) : Bool :=
  match l with
  | [] => true
  | x :: _ => l.all (fun e => (check_structure e x ("")).1)

/-- Distinct keys in an object, so that `target[key]` retrieves the
paired value: holds for anything parsed from JSON (Python dict keys are
unique). -/
def keysOk (l : List (String × JVal)) : Bool :=
  decide (l.map Prod.fst).Nodup

mutual

/-- Structural well-formedness of a value: lists are homogeneous and
objects have self-consistent key lookups, recursively. -/
def wf : JVal → Bool
  | .arr l => homog l && wfList l
  | .obj l => keysOk l && wfPairs l
  | _ => true

def wfList : List JVal → Bool
  | [] => true
  | x :: xs => wf x && wfList xs

def wfPairs : List (String × JVal) → Bool
  | [] => true
  | (_, v) :: rest => wf v && wfPairs rest

end

/-! ### Outline chapter dicts -/

/-- An outline chapter dict: `id`, `title`, `description`, optionally a
`children` key (`none` models a dict without the key, as in the
builder's leaf nodes) and optionally a `content` key. -/
inductive Chapter : Type where
  | mk : String → String → String → Option (List Chapter) → Option String → Chapter

def Chapter.id : Chapter → String
  | .mk i _ _ _ _ => i

def Chapter.title : Chapter → String
  | .mk _ t _ _ _ => t

def Chapter.description : Chapter → String
  | .mk _ _ d _ _ => d

def Chapter.children : Chapter → Option (List Chapter)
  | .mk _ _ _ ch _ => ch

def Chapter.content : Chapter → Option String
  | .mk _ _ _ _ co => co

/-- `chapter['content'] = s` (all other keys unchanged). -/
def Chapter.withContent : Chapter → Option String → Chapter
  | .mk i t d ch _, co => .mk i t d ch co

/-- Replacement of the `children` list (models its in-place mutation). -/
def Chapter.withChildren : Chapter → Option (List Chapter) → Chapter
  | .mk i t d _ co, ch => .mk i t d ch co

/-! ### outline_util.generate_one_outline_json_by_level1 -/

/-- `generate_one_outline_json_by_level1(level1_title, level1_index,
dist)`: the skeleton for one top-level section.  `level1_index` is
1-based; the source indexes `dist['level2_nodes'][level1_index - 1]`
and `dist['leaf_per_level2'][level1_index - 1][j]` (IndexError out of
range, embedded with `getD`; the claims stay in range). -/
def generate_one_outline_json_by_level1 (level1_title : String) (level1_index : ℕ)
    (dist : Distribution) : Chapter :=
  let l2_count := (dist.level2_nodes.getD (level1_index - 1) 0).toNat
  let leaf_dist := dist.leaf_per_level2.getD (level1_index - 1) []
  Chapter.mk (toString level1_index) level1_title ("")
    (some ((List.range l2_count).map (fun j =>
      Chapter.mk (toString level1_index ++ "." ++ toString (j + 1)) "" ""
        (some ((List.range ((leaf_dist.getD j 0).toNat)).map (fun k =>
          Chapter.mk
            (toString level1_index ++ "." ++ toString (j + 1) ++ "." ++ toString (k + 1))
            "" "" none none)))
        none)))
    none

/-! ### openai_service._process_outline_recursive -/

/-- An `id`/`title`/`description` triple (`current_chapter_info`). -/
structure ChapterInfo where
  id : String
  title : String
  description : String

def chapterInfo (c : Chapter) : ChapterInfo :=
  ⟨c.id, c.title, c.description⟩

/-- `'children' not in chapter or not chapter.get('children', [])`. -/
def isLeafChapter (c : Chapter) : Bool :=
  match c.children with
  | none => true
  | some [] => true
  | some (_ :: _) => false

mutual

/-- One iteration of the `for chapter in chapters` loop of
`_process_outline_recursive`.  The leaf generator
`_generate_chapter_content` is injected as `g` (chapter, parent list
excluding the chapter, sibling list as it stands when the chapter is
reached, project overview ↦ accumulated streamed content).  A leaf gets
`chapter['content'] = content` only when the content is non-empty
(`if content:`); a non-leaf gets its children recursively processed in
place and nothing else touched. -/
def processOne (g : Chapter → List ChapterInfo → List Chapter → String → String)
    (ov : String) (parents : List ChapterInfo) (siblings : List Chapter)
    (c : Chapter) : Chapter :=
  if isLeafChapter c then
    let content := g c parents siblings ov
    if content ≠ "" then c.withContent (some content) else c
  else
    match hc : c.children with
    | none => c
    | some cs =>
      c.withChildren (some (processMany g ov (parents ++ [chapterInfo c]) cs))
termination_by (sizeOf c, 0)
decreasing_by
  cases c with
  | mk i t d ch co =>
    simp only [Chapter.children] at hc
    subst hc
    simp
    omega

/-- `_process_outline_recursive(chapters, parent_chapters, overview)`. -/
def processMany (g : Chapter → List ChapterInfo → List Chapter → String → String)
    (ov : String) (parents : List ChapterInfo) (chapters : List Chapter) :
    List Chapter :=
  processGo g ov parents [] chapters
termination_by (sizeOf chapters, 2)

/-- The loop over the chapter list, in order.  `doneRev` holds the
already-mutated prefix in reverse, so the sibling list passed to `g`
reflects the in-place mutation of earlier siblings. -/
def processGo (g : Chapter → List ChapterInfo → List Chapter → String → String)
    (ov : String) (parents : List ChapterInfo) (doneRev : List Chapter) :
    List Chapter → List Chapter
  | [] => doneRev.reverse
  | c :: rest =>
    processGo g ov parents
      ((processOne g ov parents (doneRev.reverse ++ c :: rest) c) :: doneRev) rest
termination_by todo => (sizeOf todo, 1)

end

mutual

/-- A chapter with all `content` keys removed, recursively: the
structure (ids, titles, descriptions, child nesting and order) that the
content-filling pass must not touch. -/
def stripContent : Chapter → Chapter
  | .mk i t d none _ => .mk i t d none none
  | .mk i t d (some cs) _ => .mk i t d (some (stripList cs)) none

def stripList : List Chapter → List Chapter
  | [] => []
  | c :: rest => stripContent c :: stripList rest

end

mutual

/-- No non-leaf chapter carries a `content` key, recursively: the data
model invariant that only leaves ever hold content. -/
def noInnerContent : Chapter → Bool
  | .mk _ _ _ none _ => true
  | .mk _ _ _ (some []) _ => true
  | .mk _ _ _ (some (c :: rest)) co => co.isNone && noInnerContentList (c :: rest)

def noInnerContentList : List Chapter → Bool
  | [] => true
  | c :: rest => noInnerContent c && noInnerContentList rest

end

/-- Default chapter for out-of-range `getD` reads in statements. -/
def emptyChapter : Chapter := Chapter.mk ("") ("") ("") none none

/-- A small concrete distribution: one section, 2 level-2 nodes,
2 leaves under the first and 1 under the second. -/
def distEx : Distribution := ⟨[2], [3], [[2, 1]]⟩

/-- A small concrete outline: one chapter with one leaf child. -/
def chaptersEx : List Chapter :=
  [Chapter.mk ("1") ("overview") ("d")
    (some [Chapter.mk ("1.1") ("") ("") none none]) none]

/-! ### openai_service.process_level1_node and the gather -/

/-- The result steps of `process_level1_node`: the
`_generate_with_json_check(..., raise_on_fail=False)` call followed by
`json.loads(full_content.strip())`.  `json.loads` is injected as
`loads` (`none` embedding `json.JSONDecodeError`); `.error` embeds an
exception escaping the task.  No placeholder construction exists on
this path. -/
def process_level1_node (gen : ℕ → String) (check : String → Bool × String)
    (loads : String → Option JVal) : Except String JVal :=
  match (generate_with_json_check gen check 3 false).result with
  | .error e => .error e
  | .ok full_content =>
    match loads full_content.trim with
    | none => .error ("json.loads: Expecting value")
    | some v => .ok v

/-- `await asyncio.gather(*tasks)` over the per-section tasks of
`generate_outline_v2` (no `return_exceptions`): an exception in any
task propagates and aborts the whole outline; otherwise the results in
task order. -/
def gather_outline : List (Except String JVal) → Except String (List JVal)
  | [] => .ok []
  | .error e :: _ => .error e
  | .ok v :: rest =>
    match gather_outline rest with
    | .error e => .error e
    | .ok vs => .ok (v :: vs)

/-! ### Lemmas: rounding bounds -/

theorem pyRound_eq_floor_or_succ (q : ℚ) : pyRound q = ⌊q⌋ ∨ pyRound q = ⌊q⌋ + 1 := by
  unfold pyRound
  split_ifs <;> simp

theorem floor_le_pyRound (q : ℚ) : ⌊q⌋ ≤ pyRound q := by
  rcases pyRound_eq_floor_or_succ q with h | h <;> omega

theorem one_le_pyRound {q : ℚ} (h : 1 ≤ q) : 1 ≤ pyRound q := by
  have h1 : (1 : ℤ) ≤ ⌊q⌋ := Int.le_floor.mpr (by exact_mod_cast h)
  have h2 := floor_le_pyRound q
  omega

/-- Evaluation: a rational strictly below its nearest half-integer tie
rounds down. -/
theorem pyRound_eq_down {q : ℚ} {f : ℤ} (h1 : (f : ℚ) ≤ q)
    (h2 : q < (f : ℚ) + 1 / 2) : pyRound q = f := by
  have hf : ⌊q⌋ = f := Int.floor_eq_iff.mpr ⟨h1, by linarith⟩
  unfold pyRound
  rw [hf, if_pos (by linarith : q - (f : ℚ) < 1 / 2)]

/-- Evaluation: a rational strictly above its nearest half-integer tie
rounds up. -/
theorem pyRound_eq_up {q : ℚ} {f : ℤ} (h1 : (f : ℚ) + 1 / 2 < q)
    (h2 : q < (f : ℚ) + 1) : pyRound q = f + 1 := by
  have hf : ⌊q⌋ = f := Int.floor_eq_iff.mpr ⟨by linarith, by linarith⟩
  unfold pyRound
  rw [hf, if_neg (by linarith : ¬ q - (f : ℚ) < 1 / 2),
    if_pos (by linarith : 1 / 2 < q - (f : ℚ))]

/-! ### Lemmas: the level-2 node counts -/

theorem level2_nodes_length (n : ℕ) (imp : ℕ × ℕ) (t : ℕ) :
    (level2_nodes n imp t).length = n := by
  simp [level2_nodes]

theorem level2_nodes_pos {n t : ℕ} (imp : ℕ × ℕ) (hb : 1 ≤ base_l2 n t) :
    ∀ x ∈ level2_nodes n imp t, 1 ≤ x := by
  intro x hx
  have hb' : (1 : ℚ) ≤ (base_l2 n t : ℚ) := by exact_mod_cast hb
  unfold level2_nodes at hx
  rcases List.mem_or_eq_of_mem_set hx with hx1 | rfl
  · rcases List.mem_or_eq_of_mem_set hx1 with hx2 | rfl
    · rw [List.eq_of_mem_replicate hx2]
      exact hb
    · exact one_le_pyRound (by unfold p_weight; nlinarith)
  · exact one_le_pyRound (by unfold s_weight; nlinarith)

theorem level2_nodes_getD_ne_zero {n t : ℕ} (imp : ℕ × ℕ) (hb : 1 ≤ base_l2 n t)
    {i : ℕ} (hi : i < n) : (level2_nodes n imp t).getD i 0 ≠ 0 := by
  have hlen : i < (level2_nodes n imp t).length := by
    rw [level2_nodes_length]; exact hi
  rw [List.getD_eq_getElem _ _ hlen]
  have := level2_nodes_pos imp hb ((level2_nodes n imp t)[i]) (List.getElem_mem hlen)
  omega

/-! ### Lemmas: the allocation loop -/

theorem distLoop_append (n : ℕ) (imp : ℕ × ℕ) (t : ℕ) (l2 : List ℤ) :
    ∀ (idxs : List ℕ) (rem : ℤ),
      (∀ j ∈ idxs, j < n - 1) →
      (∀ j ∈ idxs, l2.getD j 0 ≠ 0) →
      l2.getD (n - 1) 0 ≠ 0 →
      ∃ lpl, distLoop n imp t l2 (idxs ++ [n - 1]) rem =
        some (idxs.map (rounded_target n imp t) ++
          [rem - (idxs.map (rounded_target n imp t)).sum], lpl)
  | [], rem, _, _, hlast => by
    refine ⟨[(List.range (l2.getD (n - 1) 0).toNat).map
      (fun j => Int.fdiv rem (l2.getD (n - 1) 0) +
        if (j : ℤ) < Int.fmod rem (l2.getD (n - 1) 0) then 1 else 0)], ?_⟩
    simp only [List.nil_append, distLoop, lt_irrefl, if_neg (lt_irrefl (n - 1)), if_false]
    rw [if_neg hlast]
    simp [distLoop]
  | i :: idxs, rem, hlt, hnz, hlast => by
    obtain ⟨lpl, ih⟩ := distLoop_append n imp t l2 idxs
      (rem - rounded_target n imp t i)
      (fun j hj => hlt j (List.mem_cons_of_mem _ hj))
      (fun j hj => hnz j (List.mem_cons_of_mem _ hj)) hlast
    refine ⟨((List.range ((l2.getD i 0).toNat)).map
      (fun j => Int.fdiv (rounded_target n imp t i) (l2.getD i 0) +
        if (j : ℤ) < Int.fmod (rounded_target n imp t i) (l2.getD i 0) then 1 else 0)) :: lpl, ?_⟩
    have hi : i < n - 1 := hlt i (List.mem_cons_self i idxs)
    simp only [List.cons_append, distLoop, if_pos hi]
    rw [if_neg (hnz i (List.mem_cons_self i idxs))]
    simp only [List.append_eq]
    rw [ih]
    simp only [List.map_cons, List.cons_append, List.sum_cons]
    congr 3
    ring_nf

/-- If the rounded base `round(total/n/3)` is at least 1 then every
level-2 count is nonzero and `calculate_nodes_distribution` succeeds,
with the stated leaf-node list. -/
theorem calculate_nodes_distribution_eq {n t : ℕ} (imp : ℕ × ℕ)
    (hn : 1 ≤ n) (hb : 1 ≤ base_l2 n t) :
    ∃ lpl, calculate_nodes_distribution n imp t =
      some ⟨level2_nodes n imp t,
        (List.range (n - 1)).map (rounded_target n imp t) ++
          [(t : ℤ) - ((List.range (n - 1)).map (rounded_target n imp t)).sum], lpl⟩ := by
  obtain ⟨m, rfl⟩ : ∃ m, n = m + 1 := ⟨n - 1, (Nat.succ_pred_eq_of_pos hn).symm⟩
  obtain ⟨lpl, h⟩ := distLoop_append (m + 1) imp t (level2_nodes (m + 1) imp t)
    (List.range m) (t : ℤ)
    (fun j hj => by have := List.mem_range.mp hj; omega)
    (fun j hj => level2_nodes_getD_ne_zero imp hb
      (by have := List.mem_range.mp hj; omega))
    (level2_nodes_getD_ne_zero imp hb (by omega))
  refine ⟨lpl, ?_⟩
  simp only [calculate_nodes_distribution]
  have hr : List.range (m + 1) = List.range m ++ [m] := by
    rw [← Nat.succ_eq_add_one]
    exact List.range_succ m
  simp only [Nat.add_sub_cancel] at h ⊢
  rw [hr, h]

/-! ### Claim theorems: leaf allocation -/

/-- C1 (counterexample): at `sectionCount = 2`, priority indices
`(0, 1)`, `totalLeafBudget = 2` — all inside the claim's quantified
domain — `calculate_nodes_distribution` does not return a distribution
at all: the rounded base is 0, every level-2 count is 0, and the
function raises `ZeroDivisionError` (embedded as `none`). -/
theorem claim1_counterexample :
    2 ≤ 2 ∧ (0 : ℕ) ≠ 1 ∧ 2 ≤ 2 ∧
      calculate_nodes_distribution 2 (0, 1) 2 = none := by
  have hb : base_l2 2 2 = 0 := by
    unfold base_l2
    exact pyRound_eq_down (by norm_num) (by norm_num)
  have hp : pyRound (((0 : ℤ) : ℚ) * p_weight) = 0 :=
    pyRound_eq_down (by norm_num [p_weight]) (by norm_num [p_weight])
  have hs : pyRound (((0 : ℤ) : ℚ) * s_weight) = 0 :=
    pyRound_eq_down (by norm_num [s_weight]) (by norm_num [s_weight])
  have hl2 : level2_nodes 2 (0, 1) 2 = [0, 0] := by
    simp only [level2_nodes, hb, hp, hs]
    decide
  refine ⟨by decide, by decide, by decide, ?_⟩
  simp only [calculate_nodes_distribution, hl2]
  decide

/-- C1 (amended): for `sectionCount ≥ 2`, distinct in-range priority
indices, `totalLeafBudget ≥ sectionCount`, and a rounded base
`round(totalLeafBudget/sectionCount/3) ≥ 1` (without which the code
raises `ZeroDivisionError`), `calculate_nodes_distribution` returns a
distribution whose `leaf_nodes` sum to exactly `totalLeafBudget`, and
whose last entry is the remainder left after the rounded targets of all
earlier sections. -/
theorem claim1_leaf_sum_exact {n t : ℕ} (imp : ℕ × ℕ)
    (h2 : 2 ≤ n) (_hi1 : imp.1 < n) (_hi2 : imp.2 < n) (_hne : imp.1 ≠ imp.2)
    (_ht : n ≤ t) (hb : 1 ≤ base_l2 n t) :
    ∃ d, calculate_nodes_distribution n imp t = some d ∧
      d.leaf_nodes.sum = (t : ℤ) ∧
      d.leaf_nodes = (List.range (n - 1)).map (rounded_target n imp t) ++
        [(t : ℤ) - ((List.range (n - 1)).map (rounded_target n imp t)).sum] := by
  obtain ⟨lpl, h⟩ := calculate_nodes_distribution_eq imp (by omega) hb
  refine ⟨_, h, ?_, rfl⟩
  simp [List.sum_append]

/-- C1 (witness): the amended theorem applied at `sectionCount = 5`,
priority indices `(1, 3)`, `totalLeafBudget = 150`. -/
theorem claim1_leaf_sum_exact_witness :
    ∃ d, calculate_nodes_distribution 5 (1, 3) 150 = some d ∧
      d.leaf_nodes.sum = (150 : ℤ) ∧
      d.leaf_nodes = (List.range 4).map (rounded_target 5 (1, 3) 150) ++
        [(150 : ℤ) - ((List.range 4).map (rounded_target 5 (1, 3) 150)).sum] :=
  claim1_leaf_sum_exact (1, 3) (by decide) (by decide) (by decide) (by decide)
    (by decide)
    (by have hb : base_l2 5 150 = 10 := by
          unfold base_l2
          exact pyRound_eq_down (by norm_num) (by norm_num)
        rw [hb]
        decide)

/-- C3 (counterexample): at `sectionCount = 10`, priority indices
`(0, 1)`, `totalLeafBudget = 10` — inside the claim's quantified
domain — the base `round(10/10/3)` is 0, it is not clamped to 1, every
level-2 count is 0 (so `level2Count[i] ≥ 1` fails), and
`calculate_nodes_distribution` raises `ZeroDivisionError` (`none`). -/
theorem claim3_counterexample :
    2 ≤ 10 ∧ (0 : ℕ) ≠ 1 ∧ 10 ≤ 10 ∧
      base_l2 10 10 = 0 ∧
      (0 : ℤ) ∈ level2_nodes 10 (0, 1) 10 ∧
      calculate_nodes_distribution 10 (0, 1) 10 = none := by
  have hb : base_l2 10 10 = 0 := by
    unfold base_l2
    exact pyRound_eq_down (by norm_num) (by norm_num)
  have hp : pyRound (((0 : ℤ) : ℚ) * p_weight) = 0 :=
    pyRound_eq_down (by norm_num [p_weight]) (by norm_num [p_weight])
  have hs : pyRound (((0 : ℤ) : ℚ) * s_weight) = 0 :=
    pyRound_eq_down (by norm_num [s_weight]) (by norm_num [s_weight])
  have hl2 : level2_nodes 10 (0, 1) 10 = List.replicate 10 0 := by
    simp only [level2_nodes, hb, hp, hs]
    decide
  refine ⟨by decide, by decide, by decide, hb, ?_, ?_⟩
  · rw [hl2]
    decide
  · simp only [calculate_nodes_distribution, hl2]
    decide

/-- C3 (amended): the code has no minimum-1 clamp.  Whenever the
unclamped base `round(totalLeafBudget/sectionCount/3)` is at least 1,
every entry of the level-2 count array is at least 1 (the priority
amplifications `round(base*1.4)` and `round(base*1.2)` included); when
the base rounds to 0 every entry is 0 and the function raises
`ZeroDivisionError` instead of returning. -/
theorem claim3_level2_lower_bound {n t : ℕ} (imp : ℕ × ℕ)
    (hb : 1 ≤ base_l2 n t) {i : ℕ} (hi : i < n) :
    1 ≤ (level2_nodes n imp t).getD i 0 := by
  have hlen : i < (level2_nodes n imp t).length := by
    rw [level2_nodes_length]; exact hi
  rw [List.getD_eq_getElem _ _ hlen]
  exact level2_nodes_pos imp hb _ (List.getElem_mem hlen)

/-- C3 (witness): the amended theorem applied at `sectionCount = 5`,
priority indices `(1, 3)`, `totalLeafBudget = 150`, entry 1. -/
theorem claim3_level2_lower_bound_witness :
    1 ≤ (level2_nodes 5 (1, 3) 150).getD 1 0 :=
  claim3_level2_lower_bound (1, 3)
    (by have hb : base_l2 5 150 = 10 := by
          unfold base_l2
          exact pyRound_eq_down (by norm_num) (by norm_num)
        rw [hb]
        decide)
    (by decide)

/-- C4 (counterexample): with a single section seed the priority-index
selection does not fall back to the degenerate pair `(0, 0)`:
`get_random_indexes(1)` raises `ValueError` (embedded as `none`), for
any injected random draw. -/
theorem claim4_counterexample :
    get_random_indexes 1 (0, 0) ≠ some (0, 0) ∧
      get_random_indexes 1 (0, 0) = none := by
  decide

/-- C4 (amended): whenever the orchestrator has fewer than 2 section
seeds, `get_random_indexes` raises `ValueError` and the allocation step
of `generate_outline_v2` aborts; no degenerate `(0, 0)` fallback and no
single-section tree is produced. -/
theorem claim4_small_seed_raises (m : ℕ) (draw : ℕ × ℕ) (hm : m < 2) :
    get_random_indexes m draw = none ∧
      outline_nodes_distribution m draw = none := by
  have h : get_random_indexes m draw = none := by
    unfold get_random_indexes
    rw [if_pos hm]
  refine ⟨h, ?_⟩
  unfold outline_nodes_distribution
  rw [h]

/-- C4 (witness): the amended theorem applied at one seed and the draw
`(0, 1)`. -/
theorem claim4_small_seed_raises_witness :
    get_random_indexes 1 (0, 1) = none ∧
      outline_nodes_distribution 1 (0, 1) = none :=
  claim4_small_seed_raises 1 (0, 1) (by decide)

/-- C5 (counterexample): the total leaf budget passed to the allocator
by `generate_outline_v2` is `100000 // 1500 = 66`, not
`max(150, sectionCount * 10)`: already at `sectionCount = 5` the two
disagree, and the budget is below 150. -/
theorem claim5_counterexample :
    leaf_node_count = 66 ∧
      leaf_node_count ≠ max 150 (5 * 10) ∧
      ¬ 150 ≤ leaf_node_count := by
  decide

/-- C5 (amended): the total leaf budget is the constant
`expected_word_count // 1500 = 66`, independent of the number of
top-level sections, and is strictly below `max(150, sectionCount * 10)`
for every section count. -/
theorem claim5_budget_constant :
    leaf_node_count = 66 ∧
      ∀ n : ℕ, leaf_node_count < max 150 (n * 10) := by
  refine ⟨by decide, fun n => ?_⟩
  have h : (66 : ℕ) < 150 := by decide
  have hle : (150 : ℕ) ≤ max 150 (n * 10) := le_max_left _ _
  have he : leaf_node_count = 66 := by decide
  omega

/-! ### Claim theorems: the retry loop -/

/-- C6: the retry loop of `_generate_with_json_check` returns the first
response that passes validation immediately, with no further generator
calls and no sleeps beyond those already performed; with `maxRetries=3`
and an always-failing generator, `returnLast` makes exactly 4 calls and
returns the 4th raw text without raising (after 3 sleeps); with the
`raise` policy and a generator failing exactly the first 2 calls, it
returns the 3rd response after exactly 2 backoff sleeps. -/
theorem claim6_retry_loop :
    (∀ gen check mr rof, (check (gen 0)).1 = true →
      generate_with_json_check gen check mr rof = ⟨Except.ok (gen 0), 1, 0⟩) ∧
    (∀ gen check, (∀ k, (check (gen k)).1 = false) →
      generate_with_json_check gen check 3 false = ⟨Except.ok (gen 3), 4, 3⟩) ∧
    (∀ gen check, (check (gen 0)).1 = false → (check (gen 1)).1 = false →
      (check (gen 2)).1 = true →
      generate_with_json_check gen check 3 true = ⟨Except.ok (gen 2), 3, 2⟩) := by
  refine ⟨?_, ?_, ?_⟩
  · intro gen check mr rof h
    cases mr <;> simp [generate_with_json_check, genLoop, h]
  · intro gen check h
    simp [generate_with_json_check, genLoop, h]
  · intro gen check h0 h1 h2
    simp [generate_with_json_check, genLoop, h0, h1, h2]

/-- C6 (witness): the three parts at concrete generators and checks. -/
theorem claim6_retry_loop_witness :
    generate_with_json_check (fun _ => ("a")) (fun _ => (true, "")) 3 true =
      ⟨Except.ok ("a"), 1, 0⟩ ∧
    generate_with_json_check (fun _ => ("b")) (fun _ => (false, ("e"))) 3 false =
      ⟨Except.ok ("b"), 4, 3⟩ ∧
    generate_with_json_check (fun k => if k = 2 then ("ok") else ("bad"))
      (fun s => (s == ("ok"), "")) 3 true = ⟨Except.ok ("ok"), 3, 2⟩ :=
  ⟨claim6_retry_loop.1 _ _ 3 true rfl,
   claim6_retry_loop.2.1 _ _ (fun _ => rfl),
   claim6_retry_loop.2.2 _ _ rfl rfl rfl⟩

/-! ### Lemmas: the structural validator -/

/-- The ok-flag of `check_structure` does not depend on the path
argument (the path only flows into error messages): element-loop
version, also independent of the enumeration index. -/
theorem checkElems_fst_ext (t0 : JVal)
    (hP : ∀ t p q, (check_structure t t0 p).1 = (check_structure t t0 q).1) :
    ∀ (ts : List JVal) (i j : ℕ) (p q : String),
      (checkElems t0 ts i p).1 = (checkElems t0 ts j q).1
  | [], _, _, _, _ => by simp [checkElems]
  | x :: xs, i, j, p, q => by
    simp only [checkElems]
    have h := hP x (p ++ "[" ++ toString i ++ "]") (q ++ "[" ++ toString j ++ "]")
    cases hb : (check_structure x t0 (p ++ "[" ++ toString i ++ "]")).1 with
    | true =>
      have hb2 : (check_structure x t0 (q ++ "[" ++ toString j ++ "]")).1 = true := by
        rw [← h]; exact hb
      rw [if_pos rfl, if_pos hb2]
      exact checkElems_fst_ext t0 hP xs (i + 1) (j + 1) p q
    | false =>
      have hb2 : (check_structure x t0 (q ++ "[" ++ toString j ++ "]")).1 = false := by
        rw [← h]; exact hb
      rw [if_neg (by simp), if_neg (by simp [hb2])]
      rw [hb, hb2]

/-- Path-independence of the ok-flag: key-loop version. -/
theorem checkKeys_fst_ext :
    ∀ (tm tg : List (String × JVal)),
      (∀ kv ∈ tm, ∀ (t : JVal) (p q : String),
        (check_structure t kv.2 p).1 = (check_structure t kv.2 q).1) →
      ∀ p q, (checkKeys tm tg p).1 = (checkKeys tm tg q).1
  | [], _, _, _, _ => by simp [checkKeys]
  | (key, tv) :: rest, tg, hP, p, q => by
    simp only [checkKeys]
    cases hl : tg.lookup key with
    | none => simp [hl]
    | some v =>
      simp only [hl]
      have h := hP (key, tv) (List.mem_cons_self _ _) v (p ++ "." ++ key) (q ++ "." ++ key)
      cases hb : (check_structure v tv (p ++ "." ++ key)).1 with
      | true =>
        have hb2 : (check_structure v tv (q ++ "." ++ key)).1 = true := by
          rw [← h]; exact hb
        rw [if_pos rfl, if_pos hb2]
        exact checkKeys_fst_ext rest tg
          (fun kv hkv => hP kv (List.mem_cons_of_mem _ hkv)) p q
      | false =>
        have hb2 : (check_structure v tv (q ++ "." ++ key)).1 = false := by
          rw [← h]; exact hb
        rw [if_neg (by simp), if_neg (by simp [hb2])]
        rw [hb, hb2]

/-- Path-independence of the ok-flag of `check_structure`. -/
theorem check_fst_ext : ∀ (tp t : JVal) (p q : String),
    (check_structure t tp p).1 = (check_structure t tp q).1
  | .arr tl, t, p, q => by
    cases t with
    | arr tgt =>
      cases tl with
      | nil => simp [check_structure, isNum, sameType]
      | cons t0 rest =>
        cases tgt with
        | nil => simp [check_structure, isNum, sameType]
        | cons y ys =>
          simp only [check_structure, isNum, sameType, Bool.false_and, Bool.not_false,
            Bool.not_true, Bool.and_false, Bool.and_self, if_false, Bool.false_eq_true,
            if_neg, ite_false]
          exact checkElems_fst_ext t0 (fun t2 p2 q2 => check_fst_ext t0 t2 p2 q2)
            (y :: ys) 0 0 p q
    | null => simp [check_structure, isNum, sameType]
    | bool b => simp [check_structure, isNum, sameType]
    | int m => simp [check_structure, isNum, sameType]
    | float r => simp [check_structure, isNum, sameType]
    | str s => simp [check_structure, isNum, sameType]
    | obj og => simp [check_structure, isNum, sameType]
  | .obj tm, t, p, q => by
    cases t with
    | obj tg =>
      simp only [check_structure, isNum, sameType, Bool.false_and, Bool.not_false,
        Bool.not_true, Bool.and_false, Bool.and_self, if_false, Bool.false_eq_true,
        if_neg, ite_false]
      exact checkKeys_fst_ext tm tg
        (fun kv hkv t2 p2 q2 => check_fst_ext kv.2 t2 p2 q2) p q
    | null => simp [check_structure, isNum, sameType]
    | bool b => simp [check_structure, isNum, sameType]
    | int m => simp [check_structure, isNum, sameType]
    | float r => simp [check_structure, isNum, sameType]
    | str s => simp [check_structure, isNum, sameType]
    | arr tgt => simp [check_structure, isNum, sameType]
  | .null, t, p, q => by cases t <;> simp [check_structure, isNum, sameType]
  | .bool b, t, p, q => by cases t <;> simp [check_structure, isNum, sameType]
  | .int m, t, p, q => by cases t <;> simp [check_structure, isNum, sameType]
  | .float r, t, p, q => by cases t <;> simp [check_structure, isNum, sameType]
  | .str s, t, p, q => by cases t <;> simp [check_structure, isNum, sameType]
termination_by tp _ _ _ => sizeOf tp
decreasing_by
  all_goals simp_wf
  · omega
  · have h1 : sizeOf kv < sizeOf tm := List.sizeOf_lt_of_mem hkv
    obtain ⟨k1, v1⟩ := kv
    simp at h1 ⊢
    omega

/-- With distinct keys, `List.lookup` retrieves each stored pair. -/
theorem lookup_self :
    ∀ {l : List (String × JVal)} {kv : String × JVal},
      (l.map Prod.fst).Nodup → kv ∈ l → l.lookup kv.1 = some kv.2 := by
  intro l
  induction l with
  | nil => intro kv _ h; cases h
  | cons a rest ih =>
    intro kv hnd hmem
    obtain ⟨k, v⟩ := a
    simp only [List.map_cons, List.nodup_cons] at hnd
    rcases List.mem_cons.mp hmem with rfl | h2
    · simp [List.lookup]
    · have hne : kv.1 ≠ k := by
        intro he
        exact hnd.1 (he ▸ List.mem_map_of_mem Prod.fst h2)
      simp only [List.lookup, beq_eq_false_iff_ne.mpr hne]
      exact ih hnd.2 h2

theorem wfList_mem : ∀ {l : List JVal}, wfList l = true → ∀ {x : JVal}, x ∈ l → wf x = true := by
  intro l
  induction l with
  | nil => intro _ x h; cases h
  | cons a rest ih =>
    intro hwf x hmem
    simp only [wfList, Bool.and_eq_true] at hwf
    rcases List.mem_cons.mp hmem with rfl | h2
    · exact hwf.1
    · exact ih hwf.2 h2

theorem wfPairs_mem : ∀ {l : List (String × JVal)}, wfPairs l = true →
    ∀ {kv : String × JVal}, kv ∈ l → wf kv.2 = true := by
  intro l
  induction l with
  | nil => intro _ kv h; cases h
  | cons a rest ih =>
    intro hwf kv hmem
    obtain ⟨k, v⟩ := a
    simp only [wfPairs, Bool.and_eq_true] at hwf
    rcases List.mem_cons.mp hmem with rfl | h2
    · exact hwf.1
    · exact ih hwf.2 h2

/-- If every element validates against the template head at every path,
the element loop succeeds. -/
theorem checkElems_fst_true :
    ∀ (t0 : JVal) (ts : List JVal) (i : ℕ) (p : String),
      (∀ e ∈ ts, ∀ p2, (check_structure e t0 p2).1 = true) →
      (checkElems t0 ts i p).1 = true
  | _, [], _, _, _ => by simp [checkElems]
  | t0, x :: xs, i, p, h => by
    simp only [checkElems]
    rw [if_pos (h x (List.mem_cons_self _ _) _)]
    exact checkElems_fst_true t0 xs (i + 1) p
      (fun e he p2 => h e (List.mem_cons_of_mem _ he) p2)

/-- If every template key is found in the target with a recursively
valid value, the key loop succeeds. -/
theorem checkKeys_fst_true :
    ∀ (tm tg : List (String × JVal)) (p : String),
      (∀ kv ∈ tm, ∃ v, tg.lookup kv.1 = some v ∧
        ∀ p2, (check_structure v kv.2 p2).1 = true) →
      (checkKeys tm tg p).1 = true
  | [], _, _, _ => by simp [checkKeys]
  | (key, tv) :: rest, tg, p, h => by
    obtain ⟨v, hl, hv⟩ := h (key, tv) (List.mem_cons_self _ _)
    simp only [checkKeys, hl]
    rw [if_pos (hv _)]
    exact checkKeys_fst_true rest tg p
      (fun kv hkv => h kv (List.mem_cons_of_mem _ hkv))

/-- Reflexivity of the structural validator on well-formed values. -/
theorem check_self : ∀ (x : JVal), wf x = true → ∀ p, (check_structure x x p).1 = true
  | .null, _, p => by simp [check_structure, isNum, sameType]
  | .bool b, _, p => by simp [check_structure, isNum]
  | .int m, _, p => by simp [check_structure, isNum]
  | .float r, _, p => by simp [check_structure, isNum]
  | .str s, _, p => by simp [check_structure, isNum, sameType]
  | .arr l, hwf, p => by
    cases l with
    | nil => simp [check_structure, isNum, sameType]
    | cons x0 xs =>
      simp only [wf, Bool.and_eq_true] at hwf
      have helem : ∀ e ∈ x0 :: xs, ∀ p2, (check_structure e x0 p2).1 = true := by
        intro e he p2
        have h0 : (check_structure e x0 ("")).1 = true := by
          have hh := hwf.1
          simp only [homog, List.all_eq_true] at hh
          exact hh e he
        rw [check_fst_ext x0 e p2 ("")]
        exact h0
      simp only [check_structure, isNum, sameType, Bool.false_and, Bool.not_false,
        Bool.and_self, Bool.not_true, Bool.and_false, Bool.false_eq_true, if_false,
        ite_false]
      exact checkElems_fst_true x0 (x0 :: xs) 0 p helem
  | .obj l, hwf, p => by
    simp only [wf, Bool.and_eq_true] at hwf
    have hmem : ∀ kv ∈ l, ∃ v, l.lookup kv.1 = some v ∧
        ∀ p2, (check_structure v kv.2 p2).1 = true := by
      intro kv hkv
      refine ⟨kv.2, ?_, ?_⟩
      · have hk := hwf.1
        simp only [keysOk, decide_eq_true_eq] at hk
        exact lookup_self hk hkv
      · intro p2
        exact check_self kv.2 (wfPairs_mem hwf.2 hkv) p2
    simp only [check_structure, isNum, sameType, Bool.false_and, Bool.not_false,
      Bool.and_self, Bool.not_true, Bool.and_false, Bool.false_eq_true, if_false,
      ite_false]
    exact checkKeys_fst_true l l p hmem
termination_by x _ _ => sizeOf x
decreasing_by
  all_goals simp_wf
  have h1 : sizeOf kv < sizeOf l := List.sizeOf_lt_of_mem hkv
  obtain ⟨k1, v1⟩ := kv
  simp at h1 ⊢
  omega

/-! ### Claim theorems: the structural validator -/

/-- C7: validating any structurally well-formed value against itself as
its own template succeeds (reflexivity), where well-formed means lists
are element-homogeneous (each element matches the first, the contract
`check_structure` imposes on non-empty template lists) and object keys
are distinct (as for anything `json.loads` produces). -/
theorem claim7_validate_reflexive (x : JVal) (hwf : wf x = true) (p : String) :
    (check_structure x x p).1 = true :=
  check_self x hwf p

/-- C7 (witness): reflexivity at a concrete nested value with an
object, a homogeneous list, numbers, strings, booleans and null. -/
theorem claim7_validate_reflexive_witness :
    (check_structure
      (JVal.obj [("a", JVal.int 1), ("b", JVal.arr [JVal.int 1, JVal.int 2]),
        ("c", JVal.str ("x")), ("d", JVal.bool true), ("e", JVal.null)])
      (JVal.obj [("a", JVal.int 1), ("b", JVal.arr [JVal.int 1, JVal.int 2]),
        ("c", JVal.str ("x")), ("d", JVal.bool true), ("e", JVal.null)]) "").1 = true :=
  claim7_validate_reflexive _
    (by simp [wf, wfList, wfPairs, homog, keysOk, check_structure, checkElems,
      isNum, sameType]) ""

/-- C10 (implicit): the validator classifies Python booleans as
numbers: the numeric-widening check runs before the identical-type
check and `isinstance(x, (int, float))` is true for `bool`, so any two
values both drawn from {bool, int, float} validate against each other
with no error at any path. -/
theorem claim10_bool_numeric (x y : JVal) (p : String)
    (hx : isNum x = true) (hy : isNum y = true) :
    check_structure x y p = (true, "") := by
  have h : (isNum y && isNum x) = true := by rw [hx, hy]; rfl
  rw [check_structure.eq_def]
  simp only [h, if_true, ite_true]

/-- C10 (witness): a boolean template accepts an int and a float
target, and numeric templates accept boolean targets. -/
theorem claim10_bool_numeric_witness :
    check_structure (JVal.int 3) (JVal.bool true) "" = (true, "") ∧
    check_structure (JVal.float (1 / 2)) (JVal.bool false) "" = (true, "") ∧
    check_structure (JVal.bool true) (JVal.int 7) "" = (true, "") ∧
    check_structure (JVal.bool false) (JVal.float 2) "" = (true, "") :=
  ⟨claim10_bool_numeric _ _ _ rfl rfl, claim10_bool_numeric _ _ _ rfl rfl,
   claim10_bool_numeric _ _ _ rfl rfl, claim10_bool_numeric _ _ _ rfl rfl⟩

/-! ### Claim theorems: the tree template builder -/

/-- Indexing a mapped range. -/
theorem getD_range_map (L : ℕ) (F : ℕ → Chapter) (j : ℕ) (hj : j < L) :
    ((List.range L).map F).getD j emptyChapter = F j := by
  rw [List.getD_eq_getElem _ _ (by simpa using hj)]
  simp

/-- C8 (counterexample): the builder does not leave every `title`
empty — the root node's title is the section title passed in. -/
theorem claim8_counterexample :
    (generate_one_outline_json_by_level1 ("Sec A") 1 distEx).title = "Sec A" ∧
      ("Sec A" : String) ≠ "" := by
  exact ⟨rfl, by decide⟩

/-- C8 (amended): the builder returns a three-level subtree in which
every node except the root has empty title, every node has empty
description, and the root's title is the given section title; every
node's id is its parent's id plus `.` plus its 1-based sibling ordinal
(the root id being the plain 1-based section ordinal); the number of
level-2 children and of leaves under each level-2 node are taken from
the distribution entries for the section's ordinal. -/
theorem claim8_template_ids (t : String) (i : ℕ) (d : Distribution) :
    (generate_one_outline_json_by_level1 t i d).id = toString i ∧
    (generate_one_outline_json_by_level1 t i d).title = t ∧
    (generate_one_outline_json_by_level1 t i d).description = "" ∧
    ∃ cs, (generate_one_outline_json_by_level1 t i d).children = some cs ∧
      cs.length = (d.level2_nodes.getD (i - 1) 0).toNat ∧
      ∀ j, j < cs.length →
        (cs.getD j emptyChapter).id = toString i ++ "." ++ toString (j + 1) ∧
        (cs.getD j emptyChapter).title = "" ∧
        (cs.getD j emptyChapter).description = "" ∧
        ∃ gs, (cs.getD j emptyChapter).children = some gs ∧
          gs.length = ((d.leaf_per_level2.getD (i - 1) []).getD j 0).toNat ∧
          ∀ k, k < gs.length →
            (gs.getD k emptyChapter).id =
              toString i ++ "." ++ toString (j + 1) ++ "." ++ toString (k + 1) ∧
            (gs.getD k emptyChapter).title = "" ∧
            (gs.getD k emptyChapter).description = "" ∧
            (gs.getD k emptyChapter).children = none := by
  refine ⟨rfl, rfl, rfl, _, rfl, ?_, ?_⟩
  · simp [generate_one_outline_json_by_level1]
  · intro j hj
    simp only [generate_one_outline_json_by_level1, List.length_map,
      List.length_range] at hj
    rw [getD_range_map _ _ j hj]
    refine ⟨rfl, rfl, rfl, _, rfl, ?_, ?_⟩
    · simp
    · intro k hk
      simp only [List.length_map, List.length_range] at hk
      rw [getD_range_map _ _ k hk]
      exact ⟨rfl, rfl, rfl, rfl⟩

/-- C8 (witness): the amended theorem evaluated at section ordinal 1
with `distEx` (2 level-2 nodes, leaves `[2, 1]`): level-2 child 1 has
id `1.2`, and its leaf 0 has id `1.2.1` and no children key. -/
theorem claim8_template_ids_witness :
    ∃ cs, (generate_one_outline_json_by_level1 ("Sec A") 1 distEx).children = some cs ∧
      cs.length = 2 ∧
      (cs.getD 1 emptyChapter).id = toString 1 ++ "." ++ toString 2 ∧
      ∃ gs, (cs.getD 1 emptyChapter).children = some gs ∧
        gs.length = 1 ∧
        (gs.getD 0 emptyChapter).id =
          toString 1 ++ "." ++ toString 2 ++ "." ++ toString 1 ∧
        (gs.getD 0 emptyChapter).children = none := by
  obtain ⟨_, _, _, cs, hcs, hlen, hj⟩ := claim8_template_ids ("Sec A") 1 distEx
  have hlen2 : cs.length = 2 := by rw [hlen]; rfl
  obtain ⟨hid, _, _, gs, hgs, hglen, hk⟩ := hj 1 (by omega)
  have hglen1 : gs.length = 1 := by rw [hglen]; rfl
  obtain ⟨hkid, _, _, hkch⟩ := hk 0 (by omega)
  exact ⟨cs, hcs, hlen2, hid, gs, hgs, hglen1, hkid, hkch⟩

/-! ### Lemmas: the content-filling pass -/

theorem stripList_eq_map : ∀ l : List Chapter, stripList l = l.map stripContent
  | [] => rfl
  | c :: rest => by
    simp only [stripList, List.map_cons]
    rw [stripList_eq_map rest]

theorem noInnerContentList_eq_all : ∀ l : List Chapter,
    noInnerContentList l = l.all noInnerContent
  | [] => rfl
  | c :: rest => by
    simp only [noInnerContentList, List.all_cons]
    rw [noInnerContentList_eq_all rest]

theorem strip_withContent (c : Chapter) (co : Option String) :
    stripContent (c.withContent co) = stripContent c := by
  cases c with
  | mk i t d ch co2 =>
    cases ch <;> simp [Chapter.withContent, stripContent]

mutual

/-- The content pass changes no chapter's stripped shape: single
chapter. -/
theorem strip_processOne (g : Chapter → List ChapterInfo → List Chapter → String → String)
    (ov : String) : ∀ (ps : List ChapterInfo) (sib : List Chapter) (c : Chapter),
      stripContent (processOne g ov ps sib c) = stripContent c
  | ps, sib, .mk i t d none co => by
    simp only [processOne, isLeafChapter, Chapter.children, if_true, ite_true]
    split
    · rw [strip_withContent]
    · rfl
  | ps, sib, .mk i t d (some []) co => by
    simp only [processOne, isLeafChapter, Chapter.children, if_true, ite_true]
    split
    · rw [strip_withContent]
    · rfl
  | ps, sib, .mk i t d (some (c0 :: crest)) co => by
    simp only [processOne, isLeafChapter, Chapter.children, Bool.false_eq_true,
      if_false, ite_false, Chapter.withChildren]
    simp only [stripContent]
    rw [strip_processMany g ov (ps ++ [chapterInfo (.mk i t d (some (c0 :: crest)) co)])
      (c0 :: crest)]
termination_by _ _ c => (sizeOf c, 0)

/-- The content pass changes no stripped shape: chapter list. -/
theorem strip_processMany (g : Chapter → List ChapterInfo → List Chapter → String → String)
    (ov : String) : ∀ (ps : List ChapterInfo) (cs : List Chapter),
      stripList (processMany g ov ps cs) = stripList cs
  | ps, cs => by
    simp only [processMany]
    rw [strip_processGo g ov ps cs []]
    simp [stripList]
termination_by _ cs => (sizeOf cs, 2)

/-- The content pass changes no stripped shape: the in-order loop with
its mutated-prefix accumulator. -/
theorem strip_processGo (g : Chapter → List ChapterInfo → List Chapter → String → String)
    (ov : String) : ∀ (ps : List ChapterInfo) (todo doneRev : List Chapter),
      stripList (processGo g ov ps doneRev todo) =
        stripList doneRev.reverse ++ stripList todo
  | ps, [], doneRev => by
    simp [processGo, stripList]
  | ps, c :: rest, doneRev => by
    simp only [processGo]
    rw [strip_processGo g ov ps rest
      ((processOne g ov ps (doneRev.reverse ++ c :: rest) c) :: doneRev)]
    rw [stripList_eq_map, stripList_eq_map, stripList_eq_map]
    simp only [List.reverse_cons, List.map_append, List.map_reverse, List.map_cons]
    rw [strip_processOne g ov ps (doneRev.reverse ++ c :: rest) c]
    simp [stripList_eq_map]
termination_by _ todo _ => (sizeOf todo, 1)

end

mutual

/-- The content pass writes `content` only on leaves: single chapter. -/
theorem inner_processOne (g : Chapter → List ChapterInfo → List Chapter → String → String)
    (ov : String) : ∀ (ps : List ChapterInfo) (sib : List Chapter) (c : Chapter),
      noInnerContent c = true → noInnerContent (processOne g ov ps sib c) = true
  | ps, sib, .mk i t d none co, _ => by
    simp only [processOne, isLeafChapter, Chapter.children, if_true, ite_true]
    split
    · simp [Chapter.withContent, noInnerContent]
    · simp [noInnerContent]
  | ps, sib, .mk i t d (some []) co, _ => by
    simp only [processOne, isLeafChapter, Chapter.children, if_true, ite_true]
    split
    · simp [Chapter.withContent, noInnerContent]
    · simp [noInnerContent]
  | ps, sib, .mk i t d (some (c0 :: crest)) co, h => by
    simp only [noInnerContent, Bool.and_eq_true] at h
    simp only [processOne, isLeafChapter, Chapter.children, Bool.false_eq_true,
      if_false, ite_false, Chapter.withChildren]
    have hL := inner_processMany g ov
      (ps ++ [chapterInfo (.mk i t d (some (c0 :: crest)) co)]) (c0 :: crest) h.2
    cases hM : processMany g ov
        (ps ++ [chapterInfo (.mk i t d (some (c0 :: crest)) co)]) (c0 :: crest) with
    | nil => simp [noInnerContent]
    | cons y ys =>
      rw [hM] at hL
      simp only [noInnerContent, Bool.and_eq_true]
      exact ⟨h.1, hL⟩
termination_by _ _ c => (sizeOf c, 0)

/-- Only leaves ever receive content: chapter list. -/
theorem inner_processMany (g : Chapter → List ChapterInfo → List Chapter → String → String)
    (ov : String) : ∀ (ps : List ChapterInfo) (cs : List Chapter),
      noInnerContentList cs = true →
      noInnerContentList (processMany g ov ps cs) = true
  | ps, cs, h => by
    simp only [processMany]
    exact inner_processGo g ov ps cs [] rfl h
termination_by _ cs => (sizeOf cs, 2)

/-- Only leaves ever receive content: the in-order loop. -/
theorem inner_processGo (g : Chapter → List ChapterInfo → List Chapter → String → String)
    (ov : String) : ∀ (ps : List ChapterInfo) (todo doneRev : List Chapter),
      noInnerContentList doneRev = true → noInnerContentList todo = true →
      noInnerContentList (processGo g ov ps doneRev todo) = true
  | ps, [], doneRev, hd, _ => by
    simp only [processGo]
    rw [noInnerContentList_eq_all] at hd ⊢
    simpa using hd
  | ps, c :: rest, doneRev, hd, ht => by
    simp only [noInnerContentList, Bool.and_eq_true] at ht
    simp only [processGo]
    refine inner_processGo g ov ps rest
      ((processOne g ov ps (doneRev.reverse ++ c :: rest) c) :: doneRev) ?_ ht.2
    simp only [noInnerContentList, Bool.and_eq_true]
    exact ⟨inner_processOne g ov ps (doneRev.reverse ++ c :: rest) c ht.1, hd⟩
termination_by _ todo _ => (sizeOf todo, 1)

end

/-! ### Claim theorems: the content-filling pass -/

/-- C9: for every leaf-content generator, overview, ancestor list and
outline list, `_process_outline_recursive` never reshapes the tree —
the outline with all `content` keys stripped is unchanged (no node
added, removed or reordered; every id, title, description and child
nesting intact) — and, provided no non-leaf holds content initially,
no non-leaf holds content afterwards: the pass writes only the
`content` field, and only on leaf chapters. -/
theorem claim9_content_fill_frame
    (g : Chapter → List ChapterInfo → List Chapter → String → String)
    (ov : String) (parents : List ChapterInfo) (chapters : List Chapter) :
    stripList (processMany g ov parents chapters) = stripList chapters ∧
    (noInnerContentList chapters = true →
      noInnerContentList (processMany g ov parents chapters) = true) :=
  ⟨strip_processMany g ov parents chapters,
   fun h => inner_processMany g ov parents chapters h⟩

/-- C9 (witness): the frame property at a constant generator on a
one-chapter, one-leaf outline. -/
theorem claim9_content_fill_frame_witness :
    stripList (processMany (fun _ _ _ _ => ("filled")) ("") [] chaptersEx) =
      stripList chaptersEx ∧
    noInnerContentList (processMany (fun _ _ _ _ => ("filled")) ("") [] chaptersEx) =
      true :=
  ⟨(claim9_content_fill_frame _ _ [] chaptersEx).1,
   (claim9_content_fill_frame _ _ [] chaptersEx).2
     (by simp [chaptersEx, noInnerContentList, noInnerContent])⟩

/-! ### Lemmas: the section tasks and the gather -/

/-- A successful `asyncio.gather` means every task returned normally. -/
theorem gather_ok_mem : ∀ {rs : List (Except String JVal)} {vs : List JVal},
    gather_outline rs = Except.ok vs → ∀ {r}, r ∈ rs → ∃ v, r = Except.ok v := by
  intro rs
  induction rs with
  | nil => intro vs _ r hr; cases hr
  | cons a rest ih =>
    intro vs hok r hr
    cases a with
    | error e => simp [gather_outline] at hok
    | ok v =>
      rcases List.mem_cons.mp hr with rfl | h2
      · exact ⟨v, rfl⟩
      · simp only [gather_outline] at hok
        cases hrest : gather_outline rest with
        | error e => rw [hrest] at hok; cases hok
        | ok vs2 => exact ih hrest h2

/-- With an always-failing validator, the retry loop returns the 4th
raw response under `returnLast`. -/
theorem generate_returnLast_of_fail (gen : ℕ → String) (check : String → Bool × String)
    (hfail : ∀ k, (check (gen k)).1 = false) :
    (generate_with_json_check gen check 3 false).result = Except.ok (gen 3) := by
  simp [generate_with_json_check, genLoop, hfail]

/-! ### Claim theorems: section failure handling -/

/-- C2 (counterexample): a section whose generator output never
validates and is not parseable JSON is not converted into a synthetic
placeholder node: `process_level1_node` raises (the `returnLast` text
reaches `json.loads`, which fails), and `asyncio.gather` in
`generate_outline_v2` propagates the exception, so no outline is
returned at all. -/
theorem claim2_counterexample :
    process_level1_node (fun _ => ("not json")) (fun _ => (false, ("bad"))) (fun _ => none) =
      Except.error ("json.loads: Expecting value") ∧
    gather_outline
      [process_level1_node (fun _ => ("not json")) (fun _ => (false, ("bad"))) (fun _ => none)] =
      Except.error ("json.loads: Expecting value") := by
  exact ⟨rfl, rfl⟩

/-- C2 (amended): when a section's expansion persistently fails schema
validation, the orchestrator does not build any placeholder node: the
task returns `json.loads` of the 4th (last) raw response — the model's
own possibly-invalid structure — and if that response is not parseable
JSON the task raises, the exception propagates through the unguarded
`asyncio.gather`, and the whole outline generation aborts. -/
theorem claim2_no_placeholder (gen : ℕ → String) (check : String → Bool × String)
    (loads : String → Option JVal) (hfail : ∀ k, (check (gen k)).1 = false) :
    process_level1_node gen check loads =
      (match loads (gen 3).trim with
       | none => Except.error ("json.loads: Expecting value")
       | some v => Except.ok v) ∧
    (loads (gen 3).trim = none →
      ∀ rs, process_level1_node gen check loads ∈ rs →
        ∀ vs, gather_outline rs ≠ Except.ok vs) := by
  have h1 : process_level1_node gen check loads =
      (match loads (gen 3).trim with
       | none => Except.error ("json.loads: Expecting value")
       | some v => Except.ok v) := by
    simp only [process_level1_node, generate_returnLast_of_fail gen check hfail]
  refine ⟨h1, ?_⟩
  intro hnone rs hmem vs hok
  obtain ⟨v, hv⟩ := gather_ok_mem hok hmem
  rw [h1, hnone] at hv
  cases hv

/-- C2 (witness): the amended theorem at a generator whose output never
validates and never parses: the section task errors and a gather
containing it cannot succeed. -/
theorem claim2_no_placeholder_witness :
    process_level1_node (fun _ => ("x")) (fun _ => (false, ("bad"))) (fun _ => none) =
      Except.error ("json.loads: Expecting value") ∧
    gather_outline [Except.ok (JVal.int 1),
      process_level1_node (fun _ => ("x")) (fun _ => (false, ("bad"))) (fun _ => none)] ≠
      Except.ok [JVal.int 1] := by
  have h := claim2_no_placeholder (fun _ => ("x")) (fun _ => (false, ("bad")))
    (fun _ => none) (fun _ => rfl)
  refine ⟨h.1, ?_⟩
  exact h.2 rfl _ (List.mem_cons_of_mem _ (List.mem_cons_self _ _)) [JVal.int 1]

end Biaoshu
